import Mathlib

/-!
Verification of the NEC display-control frame codec (`nec_control.cpp`).

Bytes are modelled as `Nat` values; every `push_back` of a C++ expression of
type `uint8_t` is modelled with an explicit `% 256` where the expression can
exceed a byte.  The encoder (`send_standard_cmd`'s buffer construction) is a
pure function from a command descriptor and an integer value to the byte list
that the program writes to the socket.
-/

/-- Byte list, mirroring `typedef std::vector<uint8_t> nec_data_t`. -/
abbrev nec_data_t := List Nat

/-- Logical commands, mirroring `enum nec_command_t { power, backlight }`. -/
inductive nec_command_t where
  | power
  | backlight
deriving DecidableEq

namespace nec_message_t

/-- Message-type byte for a command, `'A'`. -/
def command : Nat := 0x41

/-- Message-type byte for a command reply, `'B'`. -/
def command_reply : Nat := 0x42

/-- Message-type byte for a get-parameter request, `'C'`. -/
def get_parameter : Nat := 0x43

/-- Message-type byte for a get-parameter reply, `'D'`. -/
def get_parameter_reply : Nat := 0x44

/-- Message-type byte for a set-parameter request, `'E'`. -/
def set_parameter : Nat := 0x45

/-- Message-type byte for a set-parameter reply, `'F'`. -/
def set_parameter_reply : Nat := 0x46

end nec_message_t

/-- Command descriptor, mirroring `struct nec_request_t`: a message-type byte
and the fixed payload bytes identifying the command. -/
structure nec_request_t where
  msg_type : Nat
  bytes : nec_data_t
deriving DecidableEq

/-- Mirrors `nec_std_int_len`: the value is sent as 4 hex characters. -/
def nec_std_int_len : Nat := 4

/-- Mirrors `nec_stx_etx_len`: STX and ETX count toward the declared length. -/
def nec_stx_etx_len : Nat := 2

/-- Mirrors `nec_commands_list`, the fixed map from logical command to
descriptor. -/
def nec_commands_list : nec_command_t → nec_request_t
  | .power => ⟨nec_message_t.command, [0x43, 0x32, 0x30, 0x33, 0x44, 0x36]⟩
  | .backlight => ⟨nec_message_t.set_parameter, [0x30, 0x30, 0x31, 0x30]⟩

/-- Mirrors `fill_buffer_start`: appends the 8 header bytes (start-of-header,
reserved, destination, source, message type, two length characters, STX).
The length adjustment `if (len > 9) len += 7` and the byte truncation of
`0x30 + len` on `push_back` are modelled exactly. -/
def fill_buffer_start (buffer : nec_data_t) (type : Nat) (len : Nat) : nec_data_t :=
  let len := if len > 9 then len + 7 else len
  buffer ++ [0x01, 0x30, 0x41, 0x30, type % 256, 0x30, (0x30 + len) % 256, 0x02]

/-- Block-check code as computed by the loop in `fill_buffer_end`:
`check = buffer[1]` then XOR of `buffer[2..]` (equivalently, the
XOR-reduction of all bytes after index 0, since `0` is the XOR identity). -/
def bcc (b : nec_data_t) : Nat := (b.drop 1).foldl (fun a c => a ^^^ c) 0

/-- Mirrors `fill_buffer_end`: appends ETX, then the block-check byte computed
over the buffer (ETX included) skipping the start-of-header byte, then the
trailing delimiter `0x0D`. -/
def fill_buffer_end (buffer : nec_data_t) : nec_data_t :=
  let b := buffer ++ [0x03]
  b ++ [bcc b, 0x0D]

/-- Lowercase hex character for a nibble, as produced by
`std::hex` stream output (digits `'0'..'9'`, letters `'a'..'f'`). -/
def hex_char (n : Nat) : Nat := if n < 10 then 0x30 + n else 0x57 + n

/-- Mirrors `fill_number`: the parameter has C++ type `uint16_t` (modelled by
the `% 65536`); the stream `setfill('0') << setw(4) << hex` renders exactly
the 4 lowercase hex characters of the value, which are pushed in order. -/
def fill_number (buffer : nec_data_t) (value : Nat) : nec_data_t :=
  let v := value % 65536
  buffer ++ [hex_char (v / 4096 % 16), hex_char (v / 256 % 16),
             hex_char (v / 16 % 16), hex_char (v % 16)]

/-- The buffer construction of `send_standard_cmd`, applied to an arbitrary
descriptor (the spec's `encode(descriptor, value)`).  The C++ `int value`
argument is converted to `uint16_t` at the `fill_number` call, i.e. reduced
modulo 2^16 (nonnegative remainder). -/
def encode (command : nec_request_t) (value : Int) : nec_data_t :=
  let buffer : nec_data_t := []
  let buffer := fill_buffer_start buffer command.msg_type
    (command.bytes.length + nec_std_int_len + nec_stx_etx_len)
  let buffer := buffer ++ command.bytes
  let buffer := fill_number buffer (value % 65536).toNat
  fill_buffer_end buffer

/-- Mirrors `send_standard_cmd cmd value`: looks the command up in
`nec_commands_list` and builds the frame that is written to the socket. -/
def send_standard_cmd (cmd : nec_command_t) (value : Int) : nec_data_t :=
  encode (nec_commands_list cmd) value

/-- The dispatch in `main` for the backlight option: after CLI validation
(`CLI::Range(0,100)`, default `-1` when the option is absent) the command is
sent only when `backlight > 0`. -/
def main_backlight_action (backlight : Int) : Option nec_data_t :=
  if backlight > 0 then some (send_standard_cmd .backlight backlight) else none

/-- A hypothetical descriptor whose raw payload length is 10 + 4 + 2 = 16,
exceeding the 15-byte protocol limit; used to probe the missing length
check in `fill_buffer_start`. -/
def oversize_req : nec_request_t :=
  ⟨0x41, [0x30, 0x30, 0x30, 0x30, 0x30, 0x30, 0x30, 0x30, 0x30, 0x30]⟩

/-- Reply-validation error kinds named by the spec. -/
inductive ProtocolError where
  | Malformed
  | ChecksumMismatch
deriving DecidableEq

/-- Successful validation result named by the spec: the message-type byte and
the payload slice between STX and ETX. -/
structure ParsedReply where
  msg_type : Nat
  payload : nec_data_t
deriving DecidableEq

/-- Modelled from the spec: inverse of the length-field encoding, recovering
the raw declared length from the second length character (hex digits above
the character 9 sit 7 code points higher). -/
def decoded_len (c : Nat) : Nat := if 0x41 ≤ c then c - 0x30 - 7 else c - 0x30

/-- Modelled from the spec: the `validate` operation is absent from the
source — `check_answer` only hex-dumps whatever bytes were read (marked as a
TODO debug output).  Per the spec, validation fails with Malformed when fewer
than 9 bytes arrived or the start-of-header, STX, ETX, or trailing-delimiter
bytes are not at their expected positions relative to the declared length;
it fails with ChecksumMismatch when the block-check recomputed over bytes 1
through ETX disagrees with the received check byte; otherwise it returns the
message-type byte and the payload between STX and ETX. -/
def validate (raw : nec_data_t) : Except ProtocolError ParsedReply :=
  if raw.length < 9 then .error .Malformed
  else
    let len := decoded_len (raw.getD 6 0)
    if raw.getD 0 0 = 0x01 ∧ raw.getD 7 0 = 0x02 ∧ raw.length = len + 9 ∧
        raw.getD (len + 6) 0 = 0x03 ∧ raw.getD (len + 8) 0 = 0x0D then
      if ((raw.take (len + 7)).drop 1).foldl (fun a c => a ^^^ c) 0 =
          raw.getD (len + 7) 0 then
        .ok ⟨raw.getD 4 0, (raw.take (len + 6)).drop 8⟩
      else .error .ChecksumMismatch
    else .error .Malformed

/-- Unfolded shape of `fill_buffer_end`. -/
theorem fill_buffer_end_eq (b : nec_data_t) :
    fill_buffer_end b = b ++ [0x03, bcc (b ++ [0x03]), 0x0D] := by
  simp [fill_buffer_end]

/-- Unfolded shape of `encode`: header, payload, trailer. -/
theorem encode_eq (req : nec_request_t) (v : Int) :
    encode req v =
      fill_buffer_end (fill_number
        (fill_buffer_start [] req.msg_type
          (req.bytes.length + nec_std_int_len + nec_stx_etx_len) ++ req.bytes)
        ((v % 65536).toNat)) := rfl

/-- Length of the buffer just before the trailer is appended. -/
theorem pre_trailer_length (req : nec_request_t) (v : Int) :
    (fill_number
      (fill_buffer_start [] req.msg_type
        (req.bytes.length + nec_std_int_len + nec_stx_etx_len) ++ req.bytes)
      ((v % 65536).toNat)).length = req.bytes.length + 12 := by
  simp [fill_number, fill_buffer_start]

/-- The second length character written by `fill_buffer_start`. -/
theorem fill_buffer_start_len2 (t L : Nat) :
    (fill_buffer_start [] t L)[6]? =
      some ((0x30 + if L > 9 then L + 7 else L) % 256) := rfl

/-- Claim C1: in every frame produced by `encode`, the byte right after the
ETX byte (which sits at index `prefix_length + 12`) equals the XOR-reduction
of all frame bytes from index 1 through the ETX byte inclusive. -/
theorem checksum_correct (req : nec_request_t) (v : Int) :
    (encode req v)[req.bytes.length + 12]? = some 0x03 ∧
    (encode req v)[req.bytes.length + 13]? =
      some ((((encode req v).take (req.bytes.length + 13)).drop 1).foldl
        (fun a c => a ^^^ c) 0) := by
  have h := pre_trailer_length req v
  rw [encode_eq, fill_buffer_end_eq]
  set B := fill_number
    (fill_buffer_start [] req.msg_type
      (req.bytes.length + nec_std_int_len + nec_stx_etx_len) ++ req.bytes)
    ((v % 65536).toNat) with hB
  constructor
  · rw [List.getElem?_append_right (by omega)]
    simp [h]
  · rw [List.getElem?_append_right (by omega),
      List.take_append_eq_append_take, List.take_of_length_le (by omega), h]
    simp [h, bcc]

/-- Claim C2: for a raw length L in 0..15, the first message-length byte of
the header is always the character 0 and the second equals 0x30 + L for
L at most 9, and 0x41 + (L - 10) (that is, 0x30 + L + 7) for L in 10..15. -/
theorem length_field_encoding (type L : Nat) (h : L ≤ 15) :
    (fill_buffer_start [] type L)[5]? = some 0x30 ∧
    (fill_buffer_start [] type L)[6]? =
      some (if L ≤ 9 then 0x30 + L else 0x41 + (L - 10)) := by
  have h6 : (fill_buffer_start [] type L)[6]? =
      some ((0x30 + if L > 9 then L + 7 else L) % 256) := rfl
  refine ⟨rfl, ?_⟩
  rw [h6]
  congr 1
  split_ifs <;> omega

/-- Witness for C2 at L = 10. -/
theorem length_field_encoding_witness :
    10 ≤ 15 ∧
    ((fill_buffer_start [] 0x41 10)[5]? = some 0x30 ∧
     (fill_buffer_start [] 0x41 10)[6]? =
       some (if 10 ≤ 9 then 0x30 + 10 else 0x41 + (10 - 10))) :=
  ⟨by decide, length_field_encoding 0x41 10 (by decide)⟩

/-- Counterexample to claim C3: encode(Power, 1) does not produce the claimed
byte sequence (the second length character is 0x43, not 0x38, and the check
byte is 0x73, not 0x77). -/
theorem power_on_vector_cex :
    send_standard_cmd .power 1 ≠
      [0x01, 0x30, 0x41, 0x30, 0x41, 0x30, 0x38, 0x02, 0x43, 0x32, 0x30, 0x33,
       0x44, 0x36, 0x30, 0x30, 0x30, 0x31, 0x03, 0x77, 0x0D] := by decide

/-- Claim C3 as amended: encode(Power, 1) produces exactly
01 30 41 30 41 30 43 02 43 32 30 33 44 36 30 30 30 31 03 73 0D, and the
check byte 0x73 is the XOR of the bytes at offsets 1 through 18 inclusive
(reserved byte through ETX). -/
theorem power_on_vector :
    send_standard_cmd .power 1 =
      [0x01, 0x30, 0x41, 0x30, 0x41, 0x30, 0x43, 0x02, 0x43, 0x32, 0x30, 0x33,
       0x44, 0x36, 0x30, 0x30, 0x30, 0x31, 0x03, 0x73, 0x0D] ∧
    (((send_standard_cmd .power 1).take 19).drop 1).foldl
      (fun a c => a ^^^ c) 0 = 0x73 := by decide

/-- Every frame built by `encode` has 8 header bytes, the payload bytes, the
4 value characters, ETX, the check byte and the delimiter. -/
theorem encode_length_aux (req : nec_request_t) (v : Int) :
    (encode req v).length = req.bytes.length + 15 := by
  simp [encode, fill_buffer_end, fill_number, fill_buffer_start]

/-- Counterexample to claim C4: with a descriptor whose raw payload length is
16 (above the protocol limit), `encode` does not fail — it returns a complete
25-byte frame (with the out-of-range length character 0x47). -/
theorem oversize_no_error_cex :
    oversize_req.bytes.length + nec_std_int_len + nec_stx_etx_len = 16 ∧
    encode oversize_req 0 =
      [0x01, 0x30, 0x41, 0x30, 0x41, 0x30, 0x47, 0x02, 0x30, 0x30, 0x30, 0x30,
       0x30, 0x30, 0x30, 0x30, 0x30, 0x30, 0x30, 0x30, 0x30, 0x30, 0x03, 0x76,
       0x0D] := by decide

/-- Claim C4 as amended: for a descriptor whose raw payload length exceeds 15,
`encode` performs no check and does not fail: it still returns a complete
frame of length prefix-length + 15, whose second length character is the
(generally non-hex-digit) byte 0x30 + raw length + 7 truncated to a byte. -/
theorem oversize_encodes_full_frame (req : nec_request_t) (v : Int)
    (h : 15 < req.bytes.length + nec_std_int_len + nec_stx_etx_len) :
    (encode req v).length = req.bytes.length + 15 ∧
    (encode req v)[6]? =
      some ((0x30 + (req.bytes.length + nec_std_int_len + nec_stx_etx_len + 7))
        % 256) := by
  refine ⟨encode_length_aux req v, ?_⟩
  have hB := pre_trailer_length req v
  have hlen : (fill_buffer_start [] req.msg_type
      (req.bytes.length + nec_std_int_len + nec_stx_etx_len) ++
        req.bytes).length = req.bytes.length + 8 := by
    simp [fill_buffer_start]
  have h8 : (fill_buffer_start [] req.msg_type
      (req.bytes.length + nec_std_int_len + nec_stx_etx_len)).length = 8 := rfl
  rw [encode_eq, fill_buffer_end_eq]
  rw [List.getElem?_append, if_pos (by omega)]
  simp only [fill_number]
  rw [List.getElem?_append, if_pos (by omega)]
  rw [List.getElem?_append, if_pos (by omega)]
  rw [fill_buffer_start_len2, if_pos (by omega)]

/-- Witness for the amended C4 at the oversize descriptor. -/
theorem oversize_encodes_full_frame_witness :
    15 < oversize_req.bytes.length + nec_std_int_len + nec_stx_etx_len ∧
    ((encode oversize_req 0).length = oversize_req.bytes.length + 15 ∧
     (encode oversize_req 0)[6]? =
       some ((0x30 + (oversize_req.bytes.length + nec_std_int_len +
         nec_stx_etx_len + 7)) % 256)) :=
  ⟨by decide, oversize_encodes_full_frame oversize_req 0 (by decide)⟩

/-- Counterexample to claim C5: `encode` does not fail for values above 65535
or below 0 — it produces the same complete frame as for the value reduced
modulo 65536. -/
theorem value_range_cex :
    send_standard_cmd .power 65536 = send_standard_cmd .power 0 ∧
    send_standard_cmd .power (-1) = send_standard_cmd .power 65535 ∧
    (send_standard_cmd .power 65536).length = 21 := by decide

/-- Claim C5 as amended: for every value above 65535 or below 0, `encode`
does not fail; the `int` value is converted to `uint16_t`, so the frame
equals the frame for the value reduced modulo 65536 and has the full
expected length. -/
theorem value_out_of_range_truncates (req : nec_request_t) (v : Int)
    (h : 65535 < v ∨ v < 0) :
    encode req v = encode req (v % 65536) ∧
    (encode req v).length = req.bytes.length + 15 := by
  refine ⟨?_, encode_length_aux req v⟩
  have hmod : v % 65536 % 65536 = v % 65536 := Int.emod_emod_of_dvd v dvd_rfl
  rw [encode_eq req v, encode_eq req (v % 65536), hmod]

/-- Witness for the amended C5 at value 65536. -/
theorem value_out_of_range_truncates_witness :
    ((65535 : Int) < 65536 ∨ (65536 : Int) < 0) ∧
    (encode (nec_commands_list .power) 65536 =
       encode (nec_commands_list .power) (65536 % 65536) ∧
     (encode (nec_commands_list .power) 65536).length =
       (nec_commands_list .power).bytes.length + 15) :=
  ⟨Or.inl (by decide),
   value_out_of_range_truncates (nec_commands_list .power) 65536
     (Or.inl (by decide))⟩

/-- Claim C6: for every descriptor and every in-range value, the frame has
total length 8 (header through STX) + prefix length + 4 + 1 (ETX) +
1 (check) + 1 (delimiter) = prefix length + 15. -/
theorem frame_length (req : nec_request_t) (v : Int)
    (h0 : 0 ≤ v) (h1 : v ≤ 65535) :
    (encode req v).length = req.bytes.length + 15 :=
  encode_length_aux req v

/-- Witness for C6 at the Power descriptor and value 1. -/
theorem frame_length_witness :
    (0 : Int) ≤ 1 ∧ (1 : Int) ≤ 65535 ∧
    (encode (nec_commands_list .power) 1).length =
      (nec_commands_list .power).bytes.length + 15 :=
  ⟨by decide, by decide,
   frame_length (nec_commands_list .power) 1 (by decide) (by decide)⟩

/-- Claim C8: `encode` is deterministic and stateless — the frame is fully
determined by the message kind, the payload bytes, and the value, so two
calls on identical inputs give byte-identical frames. -/
theorem encode_deterministic (r₁ r₂ : nec_request_t) (v₁ v₂ : Int)
    (hm : r₁.msg_type = r₂.msg_type) (hb : r₁.bytes = r₂.bytes)
    (hv : v₁ = v₂) :
    encode r₁ v₁ = encode r₂ v₂ := by
  obtain ⟨m₁, b₁⟩ := r₁
  obtain ⟨m₂, b₂⟩ := r₂
  simp only at hm hb
  subst hm hb hv
  rfl

/-- Witness for C8 at the Power descriptor and value 1. -/
theorem encode_deterministic_witness :
    (nec_commands_list .power).msg_type = (nec_commands_list .power).msg_type ∧
    encode (nec_commands_list .power) 1 = encode (nec_commands_list .power) 1 :=
  ⟨rfl, encode_deterministic (nec_commands_list .power)
    (nec_commands_list .power) 1 1 rfl rfl rfl⟩

/-- Claim C10: the value encoder truncates to the low 16 bits — for every
integer value the frame equals the frame for the value modulo 65536, and the
4 value characters in the frame are the lowercase hex characters of that
reduced value; no value makes `encode` fail. -/
theorem fill_number_truncates (req : nec_request_t) (v : Int) :
    encode req v = encode req (v % 65536) ∧
    (encode req v)[req.bytes.length + 8]? =
      some (hex_char ((v % 65536).toNat / 4096 % 16)) ∧
    (encode req v)[req.bytes.length + 9]? =
      some (hex_char ((v % 65536).toNat / 256 % 16)) ∧
    (encode req v)[req.bytes.length + 10]? =
      some (hex_char ((v % 65536).toNat / 16 % 16)) ∧
    (encode req v)[req.bytes.length + 11]? =
      some (hex_char ((v % 65536).toNat % 16)) := by
  have hmod : v % 65536 % 65536 = v % 65536 := Int.emod_emod_of_dvd v dvd_rfl
  have hsmall : (v % 65536).toNat % 65536 = (v % 65536).toNat :=
    Nat.mod_eq_of_lt (by omega)
  have hB := pre_trailer_length req v
  have hlen : (fill_buffer_start [] req.msg_type
      (req.bytes.length + nec_std_int_len + nec_stx_etx_len) ++
        req.bytes).length = req.bytes.length + 8 := by
    simp [fill_buffer_start]
  refine ⟨by rw [encode_eq req v, encode_eq req (v % 65536), hmod],
    ?_, ?_, ?_, ?_⟩
  · rw [encode_eq, fill_buffer_end_eq]
    rw [List.getElem?_append, if_pos (by omega)]
    simp only [fill_number]
    rw [List.getElem?_append_right (by omega), hlen]
    rw [show req.bytes.length + 8 - (req.bytes.length + 8) = 0 from by omega]
    simp [hsmall]
  · rw [encode_eq, fill_buffer_end_eq]
    rw [List.getElem?_append, if_pos (by omega)]
    simp only [fill_number]
    rw [List.getElem?_append_right (by omega), hlen]
    rw [show req.bytes.length + 9 - (req.bytes.length + 8) = 1 from by omega]
    simp [hsmall]
  · rw [encode_eq, fill_buffer_end_eq]
    rw [List.getElem?_append, if_pos (by omega)]
    simp only [fill_number]
    rw [List.getElem?_append_right (by omega), hlen]
    rw [show req.bytes.length + 10 - (req.bytes.length + 8) = 2 from by omega]
    simp [hsmall]
  · rw [encode_eq, fill_buffer_end_eq]
    rw [List.getElem?_append, if_pos (by omega)]
    simp only [fill_number]
    rw [List.getElem?_append_right (by omega), hlen]
    rw [show req.bytes.length + 11 - (req.bytes.length + 8) = 3 from by omega]
    simp [hsmall]

/-- Claim C7 (failing input): with backlight value 0 — accepted by the CLI
range check 0..100 — no command is sent, because the dispatch guard in `main`
requires the value to be strictly positive; values 1..100 are sent. -/
theorem backlight_zero_not_sent :
    main_backlight_action 0 = none ∧
    main_backlight_action 1 = some (send_standard_cmd .backlight 1) ∧
    main_backlight_action 100 = some (send_standard_cmd .backlight 100) := by
  refine ⟨rfl, ?_, ?_⟩ <;> simp [main_backlight_action]

/-- Claim C9: every received byte sequence shorter than 9 bytes fails
validation with Malformed. -/
theorem validate_rejects_short (raw : nec_data_t) (h : raw.length < 9) :
    validate raw = .error .Malformed := by
  unfold validate
  rw [if_pos h]

/-- Witness for C9 at the empty byte sequence. -/
theorem validate_rejects_short_witness :
    ([] : nec_data_t).length < 9 ∧
    validate [] = .error .Malformed :=
  ⟨by decide, validate_rejects_short [] (by decide)⟩
